import Mathlib

/-!
Shallow embedding of the link/host discovery controller
(`pkg/linkdiscovery/controller.go` logic and `pkg/discovery/config.go`).

Go maps are modelled as association lists; the `hosts` map, which the Go
constructor never initializes, is modelled as `Option` (with `none` for a
nil map, so that a write to it is a panic, as in Go). Wall-clock time is
modelled as an `Int` parameter `now` (seconds); `time.Now()` calls become
explicit `now` arguments threaded to each operation.
-/

namespace Discovery

/-- State represents the various states of controller lifecycle. -/
inductive State where
  | Disconnected
  | Connected
  | PipelineConfigAvailable
  | Elected
  | PortsDiscovered
  | Configured
  | Reconfigured
  | Stopped
deriving DecidableEq, Repr

/-- Config contains configuration parameters for the link discovery
(five integer tunables, `int64` in the source). -/
structure Config where
  EmitFrequency : Int
  MaxLinkAge : Int
  PipelineValidationFrequency : Int
  PortRediscoveryFrequency : Int
  LinkPruneFrequency : Int
deriving DecidableEq, Repr

/-- Link holds data about each discovered ingress link. -/
structure Link where
  EgressPort : Nat
  EgressDeviceID : String
  IngressPort : Nat
  LastUpdate : Int
deriving DecidableEq, Repr

/-- Host is a simple representation of a discovered host network interface. -/
structure Host where
  MAC : String
  IP : String
  Port : Nat
  LastUpdate : Int
deriving DecidableEq, Repr

/-- Port holds data about each discovered switch port. -/
structure Port where
  ID : String
  Number : Nat
  Status : String
  LastChange : Int
deriving DecidableEq, Repr

/-- Typed values stored in the gNMI config tree (`gnmi.TypedValue`). -/
inductive TreeVal where
  | intVal (n : Int)
  | strVal (s : String)
  | uintVal (n : Int)
  | nilVal
deriving DecidableEq, Repr

/-- Export notifications sent to subscribe responders
(`SendToAllResponders` calls), abstracted to the event kind and payload. -/
inductive ExportEvent where
  | linkAdded (ingressPort egressPort : Nat) (egressDeviceID : String)
  | linkRemoved (ingressPort : Nat)
  | hostAdded (mac ip : String) (port : Nat)
  | hostRemoved (mac : String)
deriving DecidableEq, Repr

/-- Association-list lookup, modelling a Go map read (`m[k]` with `ok`). -/
def goGet {κ α : Type} [DecidableEq κ] : List (κ × α) → κ → Option α
  | [], _ => none
  | kv :: rest, k => if kv.1 = k then some kv.2 else goGet rest k

/-- Association-list insert/replace, modelling a Go map write `m[k] = v`. -/
def goSet {κ α : Type} [DecidableEq κ] : List (κ × α) → κ → α → List (κ × α)
  | [], k, v => [(k, v)]
  | kv :: rest, k, v => if kv.1 = k then (k, v) :: rest else kv :: goSet rest k v

/-- Association-list removal, modelling Go `delete(m, k)`. -/
def goDelete {κ α : Type} [DecidableEq κ] : List (κ × α) → κ → List (κ × α)
  | [], _ => []
  | kv :: rest, k => if kv.1 = k then goDelete rest k else kv :: goDelete rest k

/-- A Go runtime panic reachable in the modelled code. -/
inductive GoPanic where
  | nilMapWrite
deriving DecidableEq, Repr

/-- Tree paths are slash-separated segments of the source's path strings,
e.g. `state/link[port=5]/egress-port` is `["state", "link[port=5]", "egress-port"]`. -/
abbrev TreePath : Type := List String

/-- The export config tree, as a map from paths to typed values. -/
abbrev Tree : Type := List (TreePath × TreeVal)

/-- AddPath: add or replace the value at an exact path. -/
def treeAdd (t : Tree) (p : TreePath) (v : TreeVal) : Tree := goSet t p v

/-- DeletePath: delete the subtree rooted at `p` (every stored path having
`p` as a prefix). -/
def treeDelete (t : Tree) (p : TreePath) : Tree :=
  t.filter (fun kv => !(List.isPrefixOf p kv.1))

/-- GetPath followed by `.Value()`: the value stored at an exact path. -/
def treeGet (t : Tree) (p : TreePath) : Option TreeVal := goGet t p

/-- The controller fields the discovery logic touches. The `hosts` field is
`Option`al because `NewController` never initializes that map (nil map in Go). -/
structure Controller where
  TargetAddress : String
  IngressDeviceID : String
  state : State
  config : Config
  ports : List (String × Port)
  links : List (Nat × Link)
  hosts : Option (List (String × Host))
  tree : Tree
  events : List ExportEvent
deriving DecidableEq, Repr

/-- Outcome of reading the config file at startup (the viper calls in
`loadConfig`): the file may be absent, unparsable, or parse to a config. -/
inductive ConfigLoadResult where
  | fileMissing
  | unparsable
  | parsed (c : Config)
deriving DecidableEq, Repr

/-- Outcome of writing the config file (`viper.WriteConfigAs`). -/
inductive SaveResult where
  | ok
  | failed
deriving DecidableEq, Repr

/-- loadConfig: defaults are installed first; a read or unmarshal error is
logged and leaves the defaults in place; a successful parse yields the
decoded config. -/
def loadConfig : ConfigLoadResult → Config
  | ConfigLoadResult.fileMissing =>
      { EmitFrequency := 5, MaxLinkAge := 30, PipelineValidationFrequency := 60,
        PortRediscoveryFrequency := 60, LinkPruneFrequency := 2 }
  | ConfigLoadResult.unparsable =>
      { EmitFrequency := 5, MaxLinkAge := 30, PipelineValidationFrequency := 60,
        PortRediscoveryFrequency := 60, LinkPruneFrequency := 2 }
  | ConfigLoadResult.parsed c => c

/-- saveConfig: a write error is logged (second component) and never
propagated; the in-memory config (first component) is returned untouched. -/
def saveConfig (config : Config) (w : SaveResult) : Config × Option String :=
  match w with
  | SaveResult.ok => (config, none)
  | SaveResult.failed => (config, some "Unable to save config file")

/-- createConfigRoot: root config tree populated with the supplied
configuration values. -/
def createConfigRoot (agentID : String) (config : Config) : Tree :=
  treeAdd (treeAdd (treeAdd (treeAdd (treeAdd (treeAdd (treeAdd []
    ["state", "agent-id"] (TreeVal.strVal agentID))
    ["config", "emitFrequency"] (TreeVal.intVal config.EmitFrequency))
    ["config", "maxLinkAge"] (TreeVal.intVal config.MaxLinkAge))
    ["config", "pipelineValidationFrequency"] (TreeVal.intVal config.PipelineValidationFrequency))
    ["config", "portRediscoveryFrequency"] (TreeVal.intVal config.PortRediscoveryFrequency))
    ["config", "linkPruneFrequency"] (TreeVal.intVal config.LinkPruneFrequency))
    ["state", "links"] TreeVal.nilVal

/-- NewController: fresh controller. The Go constructor initializes the
`ports` and `links` maps but not `hosts` (left nil), and the `state` field
takes the zero value `Disconnected`. The config-file outcome is an explicit
parameter. -/
def NewController (targetAddress agentID : String) (load : ConfigLoadResult) : Controller :=
  let config := loadConfig load
  { TargetAddress := targetAddress
    IngressDeviceID := agentID
    state := State.Disconnected
    config := config
    ports := []
    links := []
    hosts := none
    tree := createConfigRoot agentID config
    events := [] }

/-- Path element `link[port=<n>]` used by the link tree paths. -/
def linkElem (ingressPort : Nat) : String :=
  "link[port=" ++ toString ingressPort ++ "]"

/-- addLinkToTree: mirror a link into the export tree and notify responders. -/
def addLinkToTree (c : Controller) (now : Int) (ingressPort egressPort : Nat)
    (egressDeviceID : String) : Controller :=
  let t1 := treeAdd c.tree ["state", linkElem ingressPort, "egress-port"]
    (TreeVal.intVal egressPort)
  let t2 := treeAdd t1 ["state", linkElem ingressPort, "egress-device"]
    (TreeVal.strVal egressDeviceID)
  let t3 := treeAdd t2 ["state", linkElem ingressPort, "create-time"]
    (TreeVal.uintVal now)
  let evs := c.events ++ [ExportEvent.linkAdded ingressPort egressPort egressDeviceID]
  { c with tree := t3, events := evs }

/-- removeLinkFromTree: delete the link subtree and notify responders. -/
def removeLinkFromTree (c : Controller) (ingressPort : Nat) : Controller :=
  let t1 := treeDelete c.tree ["state", linkElem ingressPort]
  let evs := c.events ++ [ExportEvent.linkRemoved ingressPort]
  { c with tree := t1, events := evs }

/-- Path elements used by addHostToTree. The source builds the port path
under `host[mac=...]` but the ip-address and create-time paths under
`link[mac=...]` (the format strings at config.go lines 143 and 145 say
`state/link[mac=%s]/...`). -/
def hostElem (mac : String) : String := "host[mac=" ++ mac ++ "]"

/-- Path element `link[mac=<mac>]` as literally written in addHostToTree. -/
def hostLinkElem (mac : String) : String := "link[mac=" ++ mac ++ "]"

/-- addHostToTree: mirror a host into the export tree and notify responders.
Faithful to the source: the ip-address and create-time paths use the
`link[mac=...]` element, not `host[mac=...]`. -/
def addHostToTree (c : Controller) (now : Int) (macString ipString : String)
    (port : Nat) : Controller :=
  let t1 := treeAdd c.tree ["state", hostElem macString, "port"]
    (TreeVal.intVal port)
  let t2 := treeAdd t1 ["state", hostLinkElem macString, "ip-address"]
    (TreeVal.strVal ipString)
  let t3 := treeAdd t2 ["state", hostLinkElem macString, "create-time"]
    (TreeVal.uintVal now)
  let evs := c.events ++ [ExportEvent.hostAdded macString ipString port]
  { c with tree := t3, events := evs }

/-- removeHostFromTree: delete the `state/host[mac=...]` subtree and notify
responders. -/
def removeHostFromTree (c : Controller) (macString : String) : Controller :=
  let t1 := treeDelete c.tree ["state", hostElem macString]
  let evs := c.events ++ [ExportEvent.hostRemoved macString]
  { c with tree := t1, events := evs }

/-- updateIngressLink: look up by ingress key; if absent or any
remote-identity field differs, install a fresh Link record and mirror the
add into the export tree; in every case the entry ends with
`LastUpdate = now` (the source assigns `link.LastUpdate = time.Now()` last,
through the pointer stored in the map). -/
def updateIngressLink (c : Controller) (now : Int) (ingressPort egressPort : Nat)
    (egressDeviceID : String) : Controller :=
  let fresh : Link :=
    { EgressPort := egressPort, EgressDeviceID := egressDeviceID,
      IngressPort := ingressPort, LastUpdate := now }
  match goGet c.links ingressPort with
  | some link =>
    if link.EgressPort = egressPort ∧ link.EgressDeviceID = egressDeviceID then
      { c with links := goSet c.links ingressPort ({ link with LastUpdate := now }) }
    else
      addLinkToTree { c with links := goSet c.links ingressPort fresh }
        now ingressPort egressPort egressDeviceID
  | none =>
      addLinkToTree { c with links := goSet c.links ingressPort fresh }
        now ingressPort egressPort egressDeviceID

/-- deleteLink: remove from the internal map and from the config tree. -/
def deleteLink (c : Controller) (ingressPort : Nat) : Controller :=
  removeLinkFromTree { c with links := goDelete c.links ingressPort } ingressPort

/-- pruneLinks: evict every link whose `LastUpdate` is before
`now - 30` seconds. The limit is the hardcoded `-30 * time.Second` of the
source (controller line 170); `Config.MaxLinkAge` is not consulted. -/
def pruneLinks (c : Controller) (now : Int) : Controller :=
  let limit := now - 30
  c.links.foldl
    (fun acc kv => if kv.2.LastUpdate < limit then deleteLink acc kv.1 else acc) c

/-- Modelled from the spec: the prune pass the specification describes,
which evicts a link only when its age exceeds the configured
`Config.MaxLinkAge` (seconds), i.e. `LastUpdate` before `now - MaxLinkAge`.
Written for comparison with `pruneLinks`, which is the source's version. -/
def pruneLinksPerSpec (c : Controller) (now : Int) : Controller :=
  let limit := now - c.config.MaxLinkAge
  c.links.foldl
    (fun acc kv => if kv.2.LastUpdate < limit then deleteLink acc kv.1 else acc) c

/-- deleteHost: remove from the internal map (a delete on a nil Go map is a
no-op, so `none` stays `none`) and from the config tree. -/
def deleteHost (c : Controller) (macString : String) : Controller :=
  removeHostFromTree
    { c with hosts := c.hosts.map (fun hs => goDelete hs macString) } macString

/-- Lookup in the hosts map; a read of a nil Go map returns the zero value
with `ok = false`, modelled by `none`. -/
def hostsLookup (o : Option (List (String × Host))) (mac : String) : Option Host :=
  match o with
  | none => none
  | some hs => goGet hs mac

/-- Entries of the hosts map for iteration; ranging over a nil Go map
yields nothing. -/
def hostsEntries : Option (List (String × Host)) → List (String × Host)
  | none => []
  | some hs => hs

/-- updateHost: like updateIngressLink for hosts, but the `hosts` map is nil
on a fresh controller, and the branch that installs a new Host record writes
to the map (`c.hosts[macString] = host`), which panics on a nil map. The
identity check compares all of MAC, IP and Port. -/
def updateHost (c : Controller) (now : Int) (macString ipString : String)
    (port : Nat) : Except GoPanic Controller :=
  let fresh : Host := { MAC := macString, IP := ipString, Port := port, LastUpdate := now }
  match c.hosts with
  | none =>
      -- lookup misses, so the code takes the insert branch and the map
      -- write `c.hosts[macString] = host` panics: assignment to nil map
      Except.error GoPanic.nilMapWrite
  | some hs =>
    match goGet hs macString with
    | some host =>
      if host.MAC = macString ∧ host.IP = ipString ∧ host.Port = port then
        Except.ok { c with hosts := some (goSet hs macString ({ host with LastUpdate := now })) }
      else
        Except.ok (addHostToTree { c with hosts := some (goSet hs macString fresh) }
          now macString ipString port)
    | none =>
        Except.ok (addHostToTree { c with hosts := some (goSet hs macString fresh) }
          now macString ipString port)

/-- pruneHosts: evict every host whose `LastUpdate` is before
`now - 1800` seconds (the hardcoded `-30 * time.Minute`). -/
def pruneHosts (c : Controller) (now : Int) : Controller :=
  let limit := now - 1800
  (hostsEntries c.hosts).foldl
    (fun acc kv => if kv.2.LastUpdate < limit then deleteHost acc kv.1 else acc) c

/-- GetLinks: snapshot of the links, sorted by ingress port ascending with a
stable sort (`sort.SliceStable` with `IngressPort <` as the less function). -/
def GetLinks (c : Controller) : List Link :=
  List.insertionSort (fun a b => a.IngressPort ≤ b.IngressPort) (c.links.map Prod.snd)

/-- setState: unconditional state write. -/
def setState (c : Controller) (st : State) : Controller := { c with state := st }

/-- setStateIf: write the state only if currently in the condition state. -/
def setStateIf (c : Controller) (condition st : State) : Controller :=
  if c.state = condition then { c with state := st } else c

/-- Stop: force the state to Stopped (the context cancellation is not part
of the state model). -/
def Stop (c : Controller) : Controller := setState c State.Stopped

/-- reenterDiscovery: the Reconfigured handler writes Configured. -/
def reenterDiscovery (c : Controller) : Controller := setState c State.Configured

/-- The integer stored at a tree path, with the protobuf getter's zero
value when the path is absent or holds another kind of value. -/
def treeGetInt (t : Tree) (p : TreePath) : Int :=
  match treeGet t p with
  | some (TreeVal.intVal n) => n
  | _ => 0

/-- UpdateConfig: read the five tunables back from the config tree into the
in-memory Config, persist it (failure logged, non-fatal), then conditionally
transition Configured to Reconfigured. -/
def UpdateConfig (c : Controller) (w : SaveResult) : Controller :=
  let cfg : Config :=
    { EmitFrequency := treeGetInt c.tree ["config", "emitFrequency"]
      MaxLinkAge := treeGetInt c.tree ["config", "maxLinkAge"]
      PipelineValidationFrequency := treeGetInt c.tree ["config", "pipelineValidationFrequency"]
      PortRediscoveryFrequency := treeGetInt c.tree ["config", "portRediscoveryFrequency"]
      LinkPruneFrequency := treeGetInt c.tree ["config", "linkPruneFrequency"] }
  let c1 := { c with config := (saveConfig cfg w).1 }
  setStateIf c1 State.Configured State.Reconfigured

/-- Loop guard of `run`: the worker loop body executes only while the
observed state is not Stopped. -/
def runGuard (s : State) : Bool := decide (s ≠ State.Stopped)

/-- Loop guard of `enterDiscovery`: the steady-state select loop continues
only while the observed state equals Configured. -/
def enterDiscoveryLoopContinues (s : State) : Bool := decide (s = State.Configured)

/-- Ticker lifecycle of a function, for resource accounting: the ticker
variables it creates with `time.NewTicker` and those it releases with a
`Stop()` call. -/
structure TickerUsage where
  created : List String
  stopped : List String
deriving DecidableEq, Repr

/-- Ticker lifecycle of `enterDiscovery` as written in the source: four
`time.NewTicker` calls (`tLinks`, `tConf`, `tPorts`, `tPrune`) and no
`Stop()` call on any of them, on any path out of the function. -/
def enterDiscoveryTickerUsage : TickerUsage :=
  { created := ["tLinks", "tConf", "tPorts", "tPrune"], stopped := [] }

/-- One atomic transition of the controller state, at the granularity the
worker loop dispatches handlers: the loop reads the state and runs the
handler registered for it, and `Stop()` may fire from any state. Handlers
whose bodies are outside the provided sources (the blocking waits) are
modelled from the spec state table: each either advances to its successor
state or stays put to retry. -/
inductive ctrlStep : State → State → Prop where
  /-- Stop() does `setState(Stopped)` from any current state. -/
  | stop (s : State) : ctrlStep s State.Stopped
  /-- Modelled from the spec: `waitForDeviceConnection` (not under src)
  advances Disconnected to Connected when the session is ready. -/
  | connectOk : ctrlStep State.Disconnected State.Connected
  /-- Modelled from the spec: transient session failure retries in place. -/
  | connectRetry : ctrlStep State.Disconnected State.Disconnected
  /-- Modelled from the spec: `waitForPipelineConfiguration` (not under src)
  advances Connected when the capability is obtained. -/
  | pipelineOk : ctrlStep State.Connected State.PipelineConfigAvailable
  /-- Modelled from the spec: transient failure retries in place. -/
  | pipelineRetry : ctrlStep State.Connected State.Connected
  /-- Modelled from the spec: `waitForMastershipArbitration` (not under src)
  advances PipelineConfigAvailable when arbitration is won. -/
  | electionOk : ctrlStep State.PipelineConfigAvailable State.Elected
  /-- Modelled from the spec: transient failure retries in place. -/
  | electionRetry : ctrlStep State.PipelineConfigAvailable State.PipelineConfigAvailable
  /-- Modelled from the spec: `discoverPorts` (not under src) completes the
  port enumeration and advances Elected to PortsDiscovered. -/
  | portsOk : ctrlStep State.Elected State.PortsDiscovered
  /-- Modelled from the spec: transient failure retries in place. -/
  | portsRetry : ctrlStep State.Elected State.Elected
  /-- setupForDiscovery (in src) ends with `setState(Configured)`. -/
  | setupDone : ctrlStep State.PortsDiscovered State.Configured
  /-- UpdateConfig may force Configured to Reconfigured (setStateIf). -/
  | reconfigure : ctrlStep State.Configured State.Reconfigured
  /-- enterDiscovery loops in place while the state stays Configured. -/
  | steadyTick : ctrlStep State.Configured State.Configured
  /-- reenterDiscovery (in src) writes Configured from Reconfigured. -/
  | reenter : ctrlStep State.Reconfigured State.Configured

/-- Reachability in zero or more controller steps. -/
def ctrlReaches : State → State → Prop := Relation.ReflTransGen ctrlStep

/-- Key coherence of the links map: every key maps to a Link whose
`IngressPort` equals that key. -/
def linksCoherent (l : List (Nat × Link)) : Prop :=
  ∀ k v, goGet l k = some v → v.IngressPort = k

/-- Key coherence of the hosts map: every key maps to a Host whose `MAC`
equals that key (a nil map has no keys and is trivially coherent). -/
def hostsCoherent (o : Option (List (String × Host))) : Prop :=
  ∀ m h, hostsLookup o m = some h → h.MAC = m

/-- Key-field coherence of both registries. -/
def coherent (c : Controller) : Prop :=
  linksCoherent c.links ∧ hostsCoherent c.hosts

/-- The registry operations of the claim sequences. -/
inductive Op where
  | updLink (t : Int) (p e : Nat) (d : String)
  | updHost (t : Int) (m ip : String) (port : Nat)
  | pruneL (t : Int)
  | pruneH (t : Int)
  | delLink (p : Nat)
  | delHost (m : String)
deriving DecidableEq, Repr

/-- Execute one registry operation; `updateHost` may panic. -/
def execOp (c : Controller) : Op → Except GoPanic Controller
  | Op.updLink t p e d => Except.ok (updateIngressLink c t p e d)
  | Op.updHost t m ip port => updateHost c t m ip port
  | Op.pruneL t => Except.ok (pruneLinks c t)
  | Op.pruneH t => Except.ok (pruneHosts c t)
  | Op.delLink p => Except.ok (deleteLink c p)
  | Op.delHost m => Except.ok (deleteHost c m)

/-- Execute a sequence of registry operations, stopping at the first panic. -/
def execSeq (c : Controller) : List Op → Except GoPanic Controller
  | [] => Except.ok c
  | op :: ops =>
    match execOp c op with
    | Except.ok c1 => execSeq c1 ops
    | Except.error e => Except.error e

/-- A parsed configuration with `MaxLinkAge` raised to 60 seconds, used to
separate the configured threshold from the hardcoded prune limit. -/
def cfg60 : Config :=
  { EmitFrequency := 5, MaxLinkAge := 60, PipelineValidationFrequency := 60,
    PortRediscoveryFrequency := 60, LinkPruneFrequency := 2 }

/-- A controller configured with `MaxLinkAge = 60` holding one link whose
last update was at time 0. -/
def c1Ctrl : Controller :=
  updateIngressLink (NewController "a" "b" (ConfigLoadResult.parsed cfg60)) 0 1 7 "devB"

/-- A controller whose hosts map has been initialized (unlike the real
constructor), so that the host add/evict round trip itself can be observed
without the nil-map panic. -/
def c8Start : Controller :=
  { NewController "a" "b" ConfigLoadResult.fileMissing with hosts := some [] }

/-- Add host `aa` (IP 1.2.3.4, port 7, time 5) and then evict it. -/
def c8RoundTrip : Controller :=
  match updateHost c8Start 5 "aa" "1.2.3.4" 7 with
  | Except.ok c1 => deleteHost c1 "aa"
  | Except.error _ => c8Start

/-- A controller with links inserted at ingress ports 5, 1, 3 in that order. -/
def c6Ctrl : Controller :=
  updateIngressLink (updateIngressLink (updateIngressLink
    (NewController "a" "b" ConfigLoadResult.fileMissing) 0 5 50 "x") 1 1 10 "y") 2 3 30 "z"

/-- A controller observed in the Elected state. -/
def c4Elected : Controller :=
  { NewController "a" "b" ConfigLoadResult.fileMissing with state := State.Elected }

/-- A fresh controller used by concrete witnesses. -/
def cW : Controller := NewController "a" "b" ConfigLoadResult.fileMissing

/-- Result of a concrete operation sequence on a fresh controller. -/
def c10Run : Except GoPanic Controller :=
  execSeq cW [Op.updLink 0 5 7 "x", Op.pruneL 100, Op.updLink 3 1 2 "y", Op.delLink 1]

/-- The final controller of `c10Run` (the sequence succeeds). -/
def c10Final : Controller :=
  match c10Run with
  | Except.ok c => c
  | Except.error _ => cW

/-- Reading back the key just written returns the written value. -/
theorem goGet_goSet_self {κ α : Type} [DecidableEq κ] (l : List (κ × α)) (k : κ) (v : α) :
    goGet (goSet l k v) k = some v := by
  induction l with
  | nil => simp [goGet, goSet]
  | cons kv rest ih =>
    by_cases h : kv.1 = k
    · simp [goSet, h, goGet]
    · simp [goSet, h, goGet, ih]

/-- Writing one key leaves every other key's binding unchanged. -/
theorem goGet_goSet_ne {κ α : Type} [DecidableEq κ] (l : List (κ × α)) (k q : κ) (v : α)
    (h : q ≠ k) : goGet (goSet l k v) q = goGet l q := by
  induction l with
  | nil =>
    simp only [goSet, goGet]
    rw [if_neg (fun h2 : k = q => h h2.symm)]
  | cons kv rest ih =>
    simp only [goSet]
    by_cases hk : kv.1 = k
    · rw [if_pos hk]
      simp only [goGet]
      rw [if_neg (fun h2 : k = q => h h2.symm), if_neg (fun h2 : kv.1 = q => h (h2.symm.trans hk))]
    · rw [if_neg hk]
      simp only [goGet]
      by_cases hq : kv.1 = q
      · rw [if_pos hq, if_pos hq]
      · rw [if_neg hq, if_neg hq, ih]

/-- Deleting a key removes its binding. -/
theorem goGet_goDelete_self {κ α : Type} [DecidableEq κ] (l : List (κ × α)) (k : κ) :
    goGet (goDelete l k) k = none := by
  induction l with
  | nil => rfl
  | cons kv rest ih =>
    simp only [goDelete]
    by_cases h : kv.1 = k
    · rw [if_pos h]
      exact ih
    · rw [if_neg h]
      simp only [goGet]
      rw [if_neg h]
      exact ih

/-- Deleting one key leaves every other key's binding unchanged. -/
theorem goGet_goDelete_ne {κ α : Type} [DecidableEq κ] (l : List (κ × α)) (k q : κ)
    (h : q ≠ k) : goGet (goDelete l k) q = goGet l q := by
  induction l with
  | nil => rfl
  | cons kv rest ih =>
    simp only [goDelete]
    by_cases hk : kv.1 = k
    · rw [if_pos hk]
      simp only [goGet]
      rw [if_neg (fun h2 : kv.1 = q => h (h2.symm.trans hk)), ih]
    · rw [if_neg hk]
      simp only [goGet]
      by_cases hq : kv.1 = q
      · rw [if_pos hq, if_pos hq]
      · rw [if_neg hq, if_neg hq, ih]

/-- Mirroring a link into the tree does not touch the links registry. -/
theorem addLinkToTree_links (c : Controller) (now : Int) (p e : Nat) (d : String) :
    (addLinkToTree c now p e d).links = c.links := rfl

/-- Mirroring a link into the tree does not touch the hosts registry. -/
theorem addLinkToTree_hosts (c : Controller) (now : Int) (p e : Nat) (d : String) :
    (addLinkToTree c now p e d).hosts = c.hosts := rfl

/-- Mirroring a link into the tree appends exactly one added event. -/
theorem addLinkToTree_events (c : Controller) (now : Int) (p e : Nat) (d : String) :
    (addLinkToTree c now p e d).events = c.events ++ [ExportEvent.linkAdded p e d] := rfl

/-- When the looked-up link matches both remote-identity fields,
updateIngressLink only rewrites the entry's timestamp. -/
theorem updateIngressLink_refresh (c : Controller) (t : Int) (p e : Nat) (d : String)
    (l : Link) (hget : goGet c.links p = some l) (he : l.EgressPort = e)
    (hd : l.EgressDeviceID = d) :
    updateIngressLink c t p e d = { c with links := goSet c.links p ({ l with LastUpdate := t }) } := by
  unfold updateIngressLink
  rw [hget]
  simp [he, hd]

/-- When the ingress key is absent, updateIngressLink installs a fresh
record and mirrors the add. -/
theorem updateIngressLink_replace_none (c : Controller) (t : Int) (p e : Nat) (d : String)
    (hget : goGet c.links p = none) :
    updateIngressLink c t p e d = addLinkToTree { c with links := goSet c.links p ({ EgressPort := e, EgressDeviceID := d, IngressPort := p, LastUpdate := t }) } t p e d := by
  unfold updateIngressLink
  rw [hget]

/-- When a remote-identity field differs, updateIngressLink installs a
fresh record and mirrors the add. -/
theorem updateIngressLink_replace_diff (c : Controller) (t : Int) (p e : Nat) (d : String)
    (l : Link) (hget : goGet c.links p = some l)
    (hne : ¬(l.EgressPort = e ∧ l.EgressDeviceID = d)) :
    updateIngressLink c t p e d = addLinkToTree { c with links := goSet c.links p ({ EgressPort := e, EgressDeviceID := d, IngressPort := p, LastUpdate := t }) } t p e d := by
  unfold updateIngressLink
  rw [hget]
  simp [hne]

/-- After any updateIngressLink, the key holds an entry carrying the given
remote identity and the update time. -/
theorem updateIngressLink_entry (c : Controller) (t : Int) (p e : Nat) (d : String) :
    ∃ l, goGet (updateIngressLink c t p e d).links p = some l ∧
      l.EgressPort = e ∧ l.EgressDeviceID = d ∧ l.LastUpdate = t := by
  cases hget : goGet c.links p with
  | none =>
    refine ⟨{ EgressPort := e, EgressDeviceID := d, IngressPort := p, LastUpdate := t }, ?_, rfl, rfl, rfl⟩
    rw [updateIngressLink_replace_none c t p e d hget, addLinkToTree_links]
    exact goGet_goSet_self ..
  | some l =>
    by_cases hc : l.EgressPort = e ∧ l.EgressDeviceID = d
    · refine ⟨{ l with LastUpdate := t }, ?_, hc.1, hc.2, rfl⟩
      rw [updateIngressLink_refresh c t p e d l hget hc.1 hc.2]
      exact goGet_goSet_self ..
    · refine ⟨{ EgressPort := e, EgressDeviceID := d, IngressPort := p, LastUpdate := t }, ?_, rfl, rfl, rfl⟩
      rw [updateIngressLink_replace_diff c t p e d l hget hc, addLinkToTree_links]
      exact goGet_goSet_self ..

/-- updateIngressLink leaves every other ingress key's binding unchanged. -/
theorem updateIngressLink_links_ne (c : Controller) (t : Int) (p e : Nat) (d : String)
    (q : Nat) (hq : q ≠ p) :
    goGet (updateIngressLink c t p e d).links q = goGet c.links q := by
  cases hget : goGet c.links p with
  | none =>
    rw [updateIngressLink_replace_none c t p e d hget, addLinkToTree_links]
    exact goGet_goSet_ne _ _ _ _ hq
  | some l =>
    by_cases hc : l.EgressPort = e ∧ l.EgressDeviceID = d
    · rw [updateIngressLink_refresh c t p e d l hget hc.1 hc.2]
      exact goGet_goSet_ne _ _ _ _ hq
    · rw [updateIngressLink_replace_diff c t p e d l hget hc, addLinkToTree_links]
      exact goGet_goSet_ne _ _ _ _ hq

/-- updateIngressLink never touches the hosts registry. -/
theorem updateIngressLink_hosts (c : Controller) (t : Int) (p e : Nat) (d : String) :
    (updateIngressLink c t p e d).hosts = c.hosts := by
  cases hget : goGet c.links p with
  | none => rw [updateIngressLink_replace_none c t p e d hget, addLinkToTree_hosts]
  | some l =>
    by_cases hc : l.EgressPort = e ∧ l.EgressDeviceID = d
    · rw [updateIngressLink_refresh c t p e d l hget hc.1 hc.2]
    · rw [updateIngressLink_replace_diff c t p e d l hget hc, addLinkToTree_hosts]

/-- Mirroring a host into the tree does not touch the registries. -/
theorem addHostToTree_links (c : Controller) (now : Int) (m ip : String) (port : Nat) :
    (addHostToTree c now m ip port).links = c.links := rfl

/-- Mirroring a host into the tree does not touch the hosts registry. -/
theorem addHostToTree_hosts (c : Controller) (now : Int) (m ip : String) (port : Nat) :
    (addHostToTree c now m ip port).hosts = c.hosts := rfl

/-- updateHost on a nil hosts map panics (assignment to entry in nil map). -/
theorem updateHost_none (c : Controller) (t : Int) (m ip : String) (port : Nat)
    (hcs : c.hosts = none) :
    updateHost c t m ip port = Except.error GoPanic.nilMapWrite := by
  unfold updateHost
  rw [hcs]

/-- updateHost with an identical identity triple only refreshes the stamp. -/
theorem updateHost_refresh (c : Controller) (t : Int) (m ip : String) (port : Nat)
    (hs : List (String × Host)) (host : Host) (hcs : c.hosts = some hs)
    (hget : goGet hs m = some host)
    (hid : host.MAC = m ∧ host.IP = ip ∧ host.Port = port) :
    updateHost c t m ip port = Except.ok { c with hosts := some (goSet hs m ({ host with LastUpdate := t })) } := by
  unfold updateHost
  rw [hcs]
  dsimp only
  rw [hget]
  dsimp only
  rw [if_pos hid]

/-- updateHost for an unknown MAC installs a fresh record and mirrors the add. -/
theorem updateHost_insert_new (c : Controller) (t : Int) (m ip : String) (port : Nat)
    (hs : List (String × Host)) (hcs : c.hosts = some hs) (hget : goGet hs m = none) :
    updateHost c t m ip port = Except.ok (addHostToTree { c with hosts := some (goSet hs m ({ MAC := m, IP := ip, Port := port, LastUpdate := t })) } t m ip port) := by
  unfold updateHost
  rw [hcs]
  dsimp only
  rw [hget]

/-- updateHost with a changed identity replaces the record and mirrors the add. -/
theorem updateHost_replace (c : Controller) (t : Int) (m ip : String) (port : Nat)
    (hs : List (String × Host)) (host : Host) (hcs : c.hosts = some hs)
    (hget : goGet hs m = some host)
    (hid : ¬(host.MAC = m ∧ host.IP = ip ∧ host.Port = port)) :
    updateHost c t m ip port = Except.ok (addHostToTree { c with hosts := some (goSet hs m ({ MAC := m, IP := ip, Port := port, LastUpdate := t })) } t m ip port) := by
  unfold updateHost
  rw [hcs]
  dsimp only
  rw [hget]
  dsimp only
  rw [if_neg hid]

/-- updateIngressLink preserves key-field coherence. -/
theorem coherent_updateIngressLink (c : Controller) (t : Int) (p e : Nat) (d : String)
    (h : coherent c) : coherent (updateIngressLink c t p e d) := by
  constructor
  · intro k v hkv
    by_cases hk : k = p
    · subst hk
      cases hget : goGet c.links k with
      | none =>
        rw [updateIngressLink_replace_none c t k e d hget] at hkv
        have hkv2 : goGet (goSet c.links k ({ EgressPort := e, EgressDeviceID := d, IngressPort := k, LastUpdate := t })) k = some v := hkv
        rw [goGet_goSet_self] at hkv2
        rw [← Option.some.inj hkv2]
      | some l0 =>
        by_cases hc : l0.EgressPort = e ∧ l0.EgressDeviceID = d
        · rw [updateIngressLink_refresh c t k e d l0 hget hc.1 hc.2] at hkv
          have hkv2 : goGet (goSet c.links k ({ l0 with LastUpdate := t })) k = some v := hkv
          rw [goGet_goSet_self] at hkv2
          rw [← Option.some.inj hkv2]
          exact h.1 k l0 hget
        · rw [updateIngressLink_replace_diff c t k e d l0 hget hc] at hkv
          have hkv2 : goGet (goSet c.links k ({ EgressPort := e, EgressDeviceID := d, IngressPort := k, LastUpdate := t })) k = some v := hkv
          rw [goGet_goSet_self] at hkv2
          rw [← Option.some.inj hkv2]
    · rw [updateIngressLink_links_ne c t p e d k hk] at hkv
      exact h.1 k v hkv
  · intro m hx hmx
    rw [show (hostsLookup (updateIngressLink c t p e d).hosts m = some hx) = (hostsLookup c.hosts m = some hx) by rw [updateIngressLink_hosts]] at hmx
    exact h.2 m hx hmx

/-- deleteLink preserves key-field coherence. -/
theorem coherent_deleteLink (c : Controller) (p : Nat) (h : coherent c) :
    coherent (deleteLink c p) := by
  constructor
  · intro k v hkv
    have hkv2 : goGet (goDelete c.links p) k = some v := hkv
    by_cases hk : k = p
    · subst hk
      rw [goGet_goDelete_self] at hkv2
      cases hkv2
    · rw [goGet_goDelete_ne _ _ _ hk] at hkv2
      exact h.1 k v hkv2
  · exact h.2

/-- deleteHost preserves key-field coherence. -/
theorem coherent_deleteHost (c : Controller) (m : String) (h : coherent c) :
    coherent (deleteHost c m) := by
  constructor
  · exact h.1
  · intro m2 hx hmx
    cases hcs : c.hosts with
    | none =>
      have hmx2 : hostsLookup (Option.map (fun hs => goDelete hs m) c.hosts) m2 = some hx := hmx
      rw [hcs] at hmx2
      cases hmx2
    | some hs =>
      have hmx2 : hostsLookup (Option.map (fun hs => goDelete hs m) c.hosts) m2 = some hx := hmx
      rw [hcs] at hmx2
      have hmx3 : goGet (goDelete hs m) m2 = some hx := hmx2
      by_cases hm : m2 = m
      · subst hm
        rw [goGet_goDelete_self] at hmx3
        cases hmx3
      · rw [goGet_goDelete_ne _ _ _ hm] at hmx3
        apply h.2 m2 hx
        rw [hcs]
        exact hmx3

/-- updateHost, when it does not panic, preserves key-field coherence. -/
theorem coherent_updateHost (c : Controller) (t : Int) (m ip : String) (port : Nat)
    (c2 : Controller) (h : coherent c) (hok : updateHost c t m ip port = Except.ok c2) :
    coherent c2 := by
  cases hcs : c.hosts with
  | none =>
    rw [updateHost_none c t m ip port hcs] at hok
    cases hok
  | some hs =>
    cases hget : goGet hs m with
    | none =>
      rw [updateHost_insert_new c t m ip port hs hcs hget] at hok
      rw [← Except.ok.inj hok]
      constructor
      · exact h.1
      · intro m2 hx hmx
        have hmx2 : goGet (goSet hs m ({ MAC := m, IP := ip, Port := port, LastUpdate := t })) m2 = some hx := hmx
        by_cases hm : m2 = m
        · subst hm
          rw [goGet_goSet_self] at hmx2
          rw [← Option.some.inj hmx2]
        · rw [goGet_goSet_ne _ _ _ _ hm] at hmx2
          apply h.2 m2 hx
          rw [hcs]
          exact hmx2
    | some host =>
      by_cases hid : host.MAC = m ∧ host.IP = ip ∧ host.Port = port
      · rw [updateHost_refresh c t m ip port hs host hcs hget hid] at hok
        rw [← Except.ok.inj hok]
        constructor
        · exact h.1
        · intro m2 hx hmx
          have hmx2 : goGet (goSet hs m ({ host with LastUpdate := t })) m2 = some hx := hmx
          by_cases hm : m2 = m
          · subst hm
            rw [goGet_goSet_self] at hmx2
            rw [← Option.some.inj hmx2]
            exact hid.1
          · rw [goGet_goSet_ne _ _ _ _ hm] at hmx2
            apply h.2 m2 hx
            rw [hcs]
            exact hmx2
      · rw [updateHost_replace c t m ip port hs host hcs hget hid] at hok
        rw [← Except.ok.inj hok]
        constructor
        · exact h.1
        · intro m2 hx hmx
          have hmx2 : goGet (goSet hs m ({ MAC := m, IP := ip, Port := port, LastUpdate := t })) m2 = some hx := hmx
          by_cases hm : m2 = m
          · subst hm
            rw [goGet_goSet_self] at hmx2
            rw [← Option.some.inj hmx2]
          · rw [goGet_goSet_ne _ _ _ _ hm] at hmx2
            apply h.2 m2 hx
            rw [hcs]
            exact hmx2

/-- pruneLinks preserves key-field coherence. -/
theorem coherent_pruneLinks (c : Controller) (t : Int) (h : coherent c) :
    coherent (pruneLinks c t) := by
  have H : ∀ (xs : List (Nat × Link)) (acc : Controller), coherent acc →
      coherent (xs.foldl (fun acc kv => if kv.2.LastUpdate < t - 30 then deleteLink acc kv.1 else acc) acc) := by
    intro xs
    induction xs with
    | nil => intro acc hacc; exact hacc
    | cons x rest ih =>
      intro acc hacc
      simp only [List.foldl]
      by_cases hx : x.2.LastUpdate < t - 30
      · rw [if_pos hx]
        exact ih _ (coherent_deleteLink acc x.1 hacc)
      · rw [if_neg hx]
        exact ih _ hacc
  exact H c.links c h

/-- pruneHosts preserves key-field coherence. -/
theorem coherent_pruneHosts (c : Controller) (t : Int) (h : coherent c) :
    coherent (pruneHosts c t) := by
  have H : ∀ (xs : List (String × Host)) (acc : Controller), coherent acc →
      coherent (xs.foldl (fun acc kv => if kv.2.LastUpdate < t - 1800 then deleteHost acc kv.1 else acc) acc) := by
    intro xs
    induction xs with
    | nil => intro acc hacc; exact hacc
    | cons x rest ih =>
      intro acc hacc
      simp only [List.foldl]
      by_cases hx : x.2.LastUpdate < t - 1800
      · rw [if_pos hx]
        exact ih _ (coherent_deleteHost acc x.1 hacc)
      · rw [if_neg hx]
        exact ih _ hacc
  exact H (hostsEntries c.hosts) c h

/-- Each successful registry operation preserves key-field coherence. -/
theorem coherent_execOp (c c2 : Controller) (op : Op) (h : coherent c)
    (hok : execOp c op = Except.ok c2) : coherent c2 := by
  cases op with
  | updLink t p e d =>
    rw [← Except.ok.inj hok]
    exact coherent_updateIngressLink c t p e d h
  | updHost t m ip port => exact coherent_updateHost c t m ip port c2 h hok
  | pruneL t =>
    rw [← Except.ok.inj hok]
    exact coherent_pruneLinks c t h
  | pruneH t =>
    rw [← Except.ok.inj hok]
    exact coherent_pruneHosts c t h
  | delLink p =>
    rw [← Except.ok.inj hok]
    exact coherent_deleteLink c p h
  | delHost m =>
    rw [← Except.ok.inj hok]
    exact coherent_deleteHost c m h

/-- A successful operation sequence preserves key-field coherence. -/
theorem coherent_execSeq (ops : List Op) : ∀ (c c2 : Controller), coherent c →
    execSeq c ops = Except.ok c2 → coherent c2 := by
  induction ops with
  | nil =>
    intro c c2 h hok
    rw [← Except.ok.inj hok]
    exact h
  | cons op rest ih =>
    intro c c2 h hok
    unfold execSeq at hok
    cases hop : execOp c op with
    | ok c1 =>
      rw [hop] at hok
      exact ih c1 c2 (coherent_execOp c c1 op h hop) hok
    | error e =>
      rw [hop] at hok
      cases hok

/-- A freshly constructed controller is coherent (both maps are empty/nil). -/
theorem coherent_NewController (a b : String) (load : ConfigLoadResult) :
    coherent (NewController a b load) := by
  constructor
  · intro k v hkv
    cases hkv
  · intro m hx hmx
    cases hmx

instance : IsTotal Link (fun a b => a.IngressPort ≤ b.IngressPort) :=
  ⟨fun a b => Nat.le_total a.IngressPort b.IngressPort⟩

instance : IsTrans Link (fun a b => a.IngressPort ≤ b.IngressPort) :=
  ⟨fun _ _ _ h1 h2 => Nat.le_trans h1 h2⟩

/-- C1: with `MaxLinkAge` configured to 60, a link last updated at time 0 is
still within the configured threshold at time 41, yet the source's
pruneLinks (hardcoded 30-second limit) removes it; the prune pass the claim
describes (`pruneLinksPerSpec`) keeps it. -/
theorem c1_pruneLinks_ignores_configured_max_age :
    c1Ctrl.config.MaxLinkAge = 60 ∧
    goGet c1Ctrl.links 1 = some { EgressPort := 7, EgressDeviceID := "devB", IngressPort := 1, LastUpdate := 0 } ∧
    (pruneLinks c1Ctrl 41).links = [] ∧
    (pruneLinksPerSpec c1Ctrl 41).links = c1Ctrl.links := by
  refine ⟨by decide, by decide, by decide, by decide⟩

/-- C2: on a controller fresh from NewController the hosts map is nil, and
the first updateHost call hits the nil-map write panic, contradicting the
no-panic-path claim. -/
theorem c2_updateHost_nil_map_panics :
    (NewController "a" "b" ConfigLoadResult.fileMissing).hosts = none ∧
    updateHost (NewController "a" "b" ConfigLoadResult.fileMissing) 0 "00:00:00:00:00:01" "10.0.0.1" 1 = Except.error GoPanic.nilMapWrite :=
  ⟨rfl, rfl⟩

/-- C3: a second updateIngressLink with the same egress identity only
rewrites the entry's timestamp — same identity fields, no new export event,
no tree change, other keys untouched — while a call with a different egress
port or device replaces the entry and appends exactly one added export
event. -/
theorem c3_updateIngressLink_idempotent_and_replace (c : Controller) (p e : Nat)
    (d : String) (t1 t2 : Int) (e2 : Nat) (d2 : String) :
    (∃ l1, goGet (updateIngressLink c t1 p e d).links p = some l1 ∧ l1.EgressPort = e ∧ l1.EgressDeviceID = d ∧ updateIngressLink (updateIngressLink c t1 p e d) t2 p e d = { updateIngressLink c t1 p e d with links := goSet (updateIngressLink c t1 p e d).links p ({ l1 with LastUpdate := t2 }) } ∧ (∀ q, q ≠ p → goGet (updateIngressLink (updateIngressLink c t1 p e d) t2 p e d).links q = goGet (updateIngressLink c t1 p e d).links q)) ∧
    (updateIngressLink (updateIngressLink c t1 p e d) t2 p e d).events = (updateIngressLink c t1 p e d).events ∧
    (updateIngressLink (updateIngressLink c t1 p e d) t2 p e d).tree = (updateIngressLink c t1 p e d).tree ∧
    (e2 ≠ e ∨ d2 ≠ d → goGet (updateIngressLink (updateIngressLink c t1 p e d) t2 p e2 d2).links p = some { EgressPort := e2, EgressDeviceID := d2, IngressPort := p, LastUpdate := t2 } ∧ (updateIngressLink (updateIngressLink c t1 p e d) t2 p e2 d2).events = (updateIngressLink c t1 p e d).events ++ [ExportEvent.linkAdded p e2 d2]) := by
  obtain ⟨l1, hget, he, hd, _⟩ := updateIngressLink_entry c t1 p e d
  have hrefresh := updateIngressLink_refresh (updateIngressLink c t1 p e d) t2 p e d l1 hget he hd
  refine ⟨⟨l1, hget, he, hd, hrefresh, ?_⟩, ?_, ?_, ?_⟩
  · intro q hq
    rw [hrefresh]
    exact goGet_goSet_ne _ _ _ _ hq
  · rw [hrefresh]
  · rw [hrefresh]
  · intro hdiff
    have hne : ¬(l1.EgressPort = e2 ∧ l1.EgressDeviceID = d2) := by
      rintro ⟨h1, h2⟩
      rcases hdiff with h3 | h3
      · exact h3 (h1.symm.trans he)
      · exact h3 (h2.symm.trans hd)
    have hrepl := updateIngressLink_replace_diff (updateIngressLink c t1 p e d) t2 p e2 d2 l1 hget hne
    constructor
    · rw [hrepl, addLinkToTree_links]
      exact goGet_goSet_self ..
    · rw [hrepl, addLinkToTree_events]

/-- Witness for C3 at concrete inputs: replacing egress port 7 with 9 on
ingress 5 yields the replaced entry and one added event, and key 6 is
untouched by the identical second call. -/
theorem c3_witness :
    goGet (updateIngressLink (updateIngressLink cW 1 5 7 "x") 2 5 9 "y").links 5 = some { EgressPort := 9, EgressDeviceID := "y", IngressPort := 5, LastUpdate := 2 } ∧
    (updateIngressLink (updateIngressLink cW 1 5 7 "x") 2 5 9 "y").events = (updateIngressLink cW 1 5 7 "x").events ++ [ExportEvent.linkAdded 5 9 "y"] ∧
    goGet (updateIngressLink (updateIngressLink cW 1 5 7 "x") 2 5 7 "x").links 6 = goGet (updateIngressLink cW 1 5 7 "x").links 6 := by
  obtain ⟨⟨l1, h1, h2, h3, h4, hq⟩, hev, htr, hrepl⟩ :=
    c3_updateIngressLink_idempotent_and_replace cW 5 7 "x" 1 2 9 "y"
  have hr := hrepl (Or.inl (by decide))
  exact ⟨hr.1, hr.2, hq 6 (by decide)⟩

/-- C4: setStateIf(Configured, Reconfigured) fires exactly when the state is
Configured (in particular it is a no-op in Elected), and UpdateConfig's
state effect is the same conditional transition. -/
theorem c4_setStateIf_conditional :
    (∀ c : Controller, (setStateIf c State.Configured State.Reconfigured).state = if c.state = State.Configured then State.Reconfigured else c.state) ∧
    (setStateIf c4Elected State.Configured State.Reconfigured).state = State.Elected ∧
    (∀ (c : Controller) (w : SaveResult), (UpdateConfig c w).state = if c.state = State.Configured then State.Reconfigured else c.state) := by
  refine ⟨fun c => ?_, by decide, fun c w => ?_⟩
  · unfold setStateIf
    split <;> rfl
  · by_cases h : c.state = State.Configured <;> simp [UpdateConfig, setStateIf, h]

/-- C5: Stopped is terminal in the step relation (nothing reachable from
Stopped differs from it), Stop() reaches Stopped in one step from every
state and sets it on the controller, and the worker loop's guard fails at
Stopped so the loop body is never entered again. -/
theorem c5_stopped_terminal_and_stop_reaches :
    (∀ s, ctrlReaches State.Stopped s → s = State.Stopped) ∧
    (∀ s, ctrlStep s State.Stopped) ∧
    (∀ c : Controller, (Stop c).state = State.Stopped) ∧
    runGuard State.Stopped = false := by
  refine ⟨?_, ctrlStep.stop, fun c => rfl, by decide⟩
  intro s h
  induction h with
  | refl => rfl
  | tail _ hstep ih =>
    subst ih
    cases hstep
    rfl

/-- Witness for C5 at concrete inputs: reflexive reachability from Stopped,
and one Stop step from Elected. -/
theorem c5_witness :
    State.Stopped = State.Stopped ∧ ctrlStep State.Elected State.Stopped :=
  ⟨c5_stopped_terminal_and_stop_reaches.1 State.Stopped Relation.ReflTransGen.refl,
   c5_stopped_terminal_and_stop_reaches.2.1 State.Elected⟩

/-- C6: GetLinks returns a list sorted by ingress port ascending that is a
permutation of the registry's links (a fresh snapshot, the registry value
itself being untouched by the pure read), and inserting ingress ports
5, 1, 3 yields ingress order [1, 3, 5]. -/
theorem c6_getLinks_sorted_snapshot :
    (∀ c : Controller, List.Sorted (fun a b : Link => a.IngressPort ≤ b.IngressPort) (GetLinks c) ∧ List.Perm (GetLinks c) (c.links.map Prod.snd)) ∧
    (GetLinks c6Ctrl).map Link.IngressPort = [1, 3, 5] := by
  refine ⟨fun c => ⟨List.sorted_insertionSort _ _, List.perm_insertionSort _ _⟩, by decide⟩

/-- C7: the steady-state loop guard fails as soon as the state is no longer
Configured, but the four tickers enterDiscovery creates are never stopped:
the source contains no Stop() call, so they are not released on exit. -/
theorem c7_enterDiscovery_tickers_never_stopped :
    enterDiscoveryLoopContinues State.Configured = true ∧
    enterDiscoveryLoopContinues State.Reconfigured = false ∧
    enterDiscoveryLoopContinues State.Stopped = false ∧
    enterDiscoveryTickerUsage.created = ["tLinks", "tConf", "tPorts", "tPrune"] ∧
    enterDiscoveryTickerUsage.stopped = [] := by
  decide

/-- C8: adding host `aa` and then evicting it removes it from the hosts map
and deletes the `state/host[mac=aa]` subtree, but the ip-address and
create-time paths the add created live under `state/link[mac=aa]` and
survive the eviction as residual exported state. -/
theorem c8_host_roundtrip_leaves_residual_tree_state :
    hostsLookup c8RoundTrip.hosts "aa" = none ∧
    treeGet c8RoundTrip.tree ["state", "host[mac=aa]", "port"] = none ∧
    treeGet c8RoundTrip.tree ["state", "link[mac=aa]", "ip-address"] = some (TreeVal.strVal "1.2.3.4") ∧
    treeGet c8RoundTrip.tree ["state", "link[mac=aa]", "create-time"] = some (TreeVal.uintVal 5) := by
  refine ⟨by decide, by decide, by decide, by decide⟩

/-- C9: a missing or unparsable configuration file yields exactly the
default Config, and saveConfig returns the in-memory Config unchanged for
both write outcomes (a failure is only logged). -/
theorem c9_load_defaults_save_nonfatal :
    loadConfig ConfigLoadResult.fileMissing = { EmitFrequency := 5, MaxLinkAge := 30, PipelineValidationFrequency := 60, PortRediscoveryFrequency := 60, LinkPruneFrequency := 2 } ∧
    loadConfig ConfigLoadResult.unparsable = { EmitFrequency := 5, MaxLinkAge := 30, PipelineValidationFrequency := 60, PortRediscoveryFrequency := 60, LinkPruneFrequency := 2 } ∧
    (∀ (cfg : Config) (w : SaveResult), (saveConfig cfg w).1 = cfg) :=
  ⟨rfl, rfl, fun _ w => by cases w <;> rfl⟩

/-- C10: every controller reachable from a fresh one through a successful
sequence of registry operations is key-field coherent: each links key maps
to a Link with that IngressPort and each hosts key to a Host with that MAC. -/
theorem c10_registry_key_coherence (ops : List Op) (a b : String)
    (load : ConfigLoadResult) (c : Controller)
    (hok : execSeq (NewController a b load) ops = Except.ok c) : coherent c :=
  coherent_execSeq ops (NewController a b load) c (coherent_NewController a b load) hok

/-- Witness for C10: the concrete four-operation run succeeds and its final
controller is coherent. -/
theorem c10_witness : coherent c10Final :=
  c10_registry_key_coherence
    [Op.updLink 0 5 7 "x", Op.pruneL 100, Op.updLink 3 1 2 "y", Op.delLink 1]
    "a" "b" ConfigLoadResult.fileMissing c10Final rfl

end Discovery
